import Mathlib

/-!
Shallow embedding of the animation timeline engine of the repository
pachinko-captcha (source file src/unnamed/part_000): the AnimSprite frame
record, the Animation class with its binary-search frame lookup
(getAnimIndex), playback advance (update) and loop re-basing, and the
animation builder registry (createAnimationBuilder / hasAnimation /
createAnimation).

Modeling conventions:
- JavaScript numbers holding times and durations are modeled as Int.
- performance.now() is modeled as an explicit parameter of start, update
  and createAnimation.
- Optional JavaScript fields are Option values; the JavaScript defaulting
  idioms x || 0 and x ?? 0 over numbers are both Option.getD 0, and
  name || the empty string is Option.getD of the empty string.
- The while loop of getAnimIndex is written with an explicit fuel that is
  exactly the loop measure (rightI + 1 - leftI).toNat taken at entry: each
  iteration strictly shrinks that measure, and when the fuel reaches zero
  the measure is zero, so the loop guard leftI <= rightI is false and the
  loop would return lastIndex anyway; hence the fueled function computes
  exactly what the source loop computes.
- The process-wide builder registry object is modeled as an explicit
  association list passed to the registry operations; registering pushes in
  front, so a later registration under the same name wins the lookup, as
  assignment into the JavaScript object does. A zero-argument builder
  function is modeled by the Animation it produces. The thrown
  "No animation exists which is named ..." Error is modeled as
  Except.error carrying the requested name (the message interpolates
  exactly that name).
-/

structure AnimSprite where
  name : String
  duration : Int
  durationUpToNow : Int
  timestampBegin : Option Int
  timestampEnd : Option Int
  offsetX : Option Int
  offsetY : Option Int
  opacity : Option Int
  hasPlayedSound : Bool
deriving DecidableEq, Inhabited

/-- Partial frame descriptor: the fields of the object literal accepted by
Animation.addSprite, all optional. -/
structure PartialAnimSprite where
  name : Option String
  duration : Option Int
  offsetX : Option Int
  offsetY : Option Int
  opacity : Option Int
deriving DecidableEq, Inhabited

structure Animation where
  name : String
  loop : Bool
  sprites : List AnimSprite
  done : Bool
  totalDurationMs : Int
  currentSpriteIndex : Int
  timestampStart : Int
  timestampPause : Int
deriving DecidableEq

/-- Constructor new Animation(loop). -/
def newAnimation (loop : Bool) : Animation :=
  { name := ""
    loop := loop
    sprites := []
    done := false
    totalDurationMs := 0
    currentSpriteIndex := 0
    timestampStart := 0
    timestampPause := 0 }

namespace Animation

def reset (a : Animation) : Animation :=
  { a with done := false, currentSpriteIndex := 0 }

/-- start() captures performance.now() into timestampStart; the clock value
is the explicit parameter now. -/
def start (a : Animation) (now : Int) : Animation :=
  { a with timestampStart := now }

def getDurationMs (a : Animation) : Int :=
  a.totalDurationMs

def getLongestFrameMs (a : Animation) : Int :=
  a.sprites.foldl (fun ms sprite => if sprite.duration > ms then sprite.duration else ms) 0

def getLongestFrameIndex (a : Animation) : Int :=
  (a.sprites.enum.foldl
    (fun p is =>
      if is.2.duration > p.2 then (((is.1 : Nat) : Int), is.2.duration) else p)
    ((0 : Int), (0 : Int))).1

def getDurationToIndex (a : Animation) (i : Int) : Int :=
  if i ≥ (a.sprites.length : Int) then
    a.totalDurationMs
  else if 0 ≤ i then
    match a.sprites.get? i.toNat with
    | some s => s.durationUpToNow
    | none => 0
  else 0

def addSprite (a : Animation) (p : PartialAnimSprite) : Animation :=
  { a with
    sprites := a.sprites ++
      [{ name := p.name.getD ""
         timestampBegin := some a.totalDurationMs
         timestampEnd := some (a.totalDurationMs + p.duration.getD 0)
         duration := p.duration.getD 0
         durationUpToNow := a.totalDurationMs
         offsetX := some (p.offsetX.getD 0)
         offsetY := some (p.offsetY.getD 0)
         opacity := p.opacity
         hasPlayedSound := false }]
    totalDurationMs := a.totalDurationMs + p.duration.getD 0 }

/-- Array read this.sprites[i] for an Int index: the element when the index
is in range. Out of range the JavaScript code would destructure undefined;
the claims are stated on states where this does not happen. -/
def spriteAt (a : Animation) (i : Int) : AnimSprite :=
  if 0 ≤ i then a.sprites.getD i.toNat default else default

/-- beginTime of the loop body: (timestampBegin || 0) + this.timestampStart. -/
def beginTime (a : Animation) (i : Int) : Int :=
  (a.spriteAt i).timestampBegin.getD 0 + a.timestampStart

/-- endTime of the loop body: (timestampEnd || 0) + this.timestampStart. -/
def endTime (a : Animation) (i : Int) : Int :=
  (a.spriteAt i).timestampEnd.getD 0 + a.timestampStart

/-- The containment test of the loop body, strict at both ends:
timestampNow < endTime && timestampNow > beginTime. -/
def strictContain (a : Animation) (t : Int) (i : Int) : Bool :=
  decide (t < a.endTime i) && decide (t > a.beginTime i)

/-- The while loop of getAnimIndex. lastIndex, leftI and rightI are the
mutable variables of the source; midI is leftI + Math.floor((rightI - leftI) / 2).
The fuel is the entry value of the loop measure, see the header comment. -/
def getAnimIndexGo (a : Animation) (t : Int) : Nat → Int → Int → Int → Int
  | 0, lastIndex, _, _ => lastIndex
  | fuel + 1, lastIndex, leftI, rightI =>
    if leftI ≤ rightI then
      let midI := leftI + (rightI - leftI) / 2
      if a.strictContain t midI then midI
      else if t ≥ a.endTime midI then a.getAnimIndexGo t fuel midI (midI + 1) rightI
      else a.getAnimIndexGo t fuel midI leftI (midI - 1)
    else lastIndex

/-- The list of midpoint indices the loop of getAnimIndex visits (each one
is assigned to lastIndex and tested), in visiting order. -/
def visitedGo (a : Animation) (t : Int) : Nat → Int → Int → List Int
  | 0, _, _ => []
  | fuel + 1, leftI, rightI =>
    if leftI ≤ rightI then
      let midI := leftI + (rightI - leftI) / 2
      if a.strictContain t midI then [midI]
      else if t ≥ a.endTime midI then midI :: a.visitedGo t fuel (midI + 1) rightI
      else midI :: a.visitedGo t fuel leftI (midI - 1)
    else []

/-- Entry value of the loop measure of getAnimIndex: with
leftI = currentSpriteIndex and rightI = sprites.length - 1 this is
(rightI + 1 - leftI).toNat. -/
def searchFuel (a : Animation) : Nat :=
  ((a.sprites.length : Int) - a.currentSpriteIndex).toNat

/-- getAnimIndex(timestampNow): binary search with lastIndex starting at 0,
leftI starting at this.currentSpriteIndex and rightI at
this.sprites.length - 1. -/
def getAnimIndex (a : Animation) (t : Int) : Int :=
  a.getAnimIndexGo t a.searchFuel 0 a.currentSpriteIndex ((a.sprites.length : Int) - 1)

/-- The midpoints a call of getAnimIndex visits. -/
def visitedMids (a : Animation) (t : Int) : List Int :=
  a.visitedGo t a.searchFuel a.currentSpriteIndex ((a.sprites.length : Int) - 1)

/-- The first phase of update(): when the current sprite is the last one,
the animation loops and more than the total duration elapsed since
timestampStart, re-base: newStart is timestampStart + totalDurationMs,
reset() and start() run (start overwrites timestampStart with now), and
when now - newStart is still below the total duration, timestampStart is
overwritten back to newStart. -/
def wrapStep (a : Animation) (now : Int) : Animation :=
  if a.currentSpriteIndex = (a.sprites.length : Int) - 1 then
    if a.loop = true ∧ now - a.timestampStart > a.totalDurationMs then
      let newStart := a.timestampStart + a.totalDurationMs
      let a2 := (a.reset).start now
      if now - newStart < a.totalDurationMs then
        { a2 with timestampStart := newStart }
      else a2
    else a
  else a

/-- update(): the wrap phase, then currentSpriteIndex is recomputed by
getAnimIndex(now) on the possibly re-based state, then for a non-looping
animation done is latched once now - timestampStart has reached
totalDurationMs. -/
def update (a : Animation) (now : Int) : Animation :=
  let a1 := a.wrapStep now
  let a2 := { a1 with currentSpriteIndex := a1.getAnimIndex now }
  if a2.loop = false then
    if now - a2.timestampStart ≥ a2.totalDurationMs then { a2 with done := true }
    else a2
  else a2

/-- getSpriteName(i?): the name of the sprite at i, or at
currentSpriteIndex when i is omitted; undefined (none) when the index is
out of range. -/
def getSpriteName (a : Animation) (i : Option Int) : Option String :=
  let idx := i.getD a.currentSpriteIndex
  if 0 ≤ idx then (a.sprites.get? idx.toNat).map (fun s => s.name) else none

def setCurrentSprite (a : Animation) (i : Int) : Animation :=
  { a with currentSpriteIndex := i }

def isDone (a : Animation) : Bool :=
  a.done

end Animation

/-- The process-wide animationBuilders object: an association list from
animation name to the Animation the registered zero-argument builder
produces. -/
abbrev AnimationRegistry : Type := List (String × Animation)

/-- createAnimationBuilder(name, builder): registering pushes in front, so
the latest registration under a name wins the lookup. -/
def createAnimationBuilder (reg : AnimationRegistry) (name : String) (built : Animation) :
    AnimationRegistry :=
  (name, built) :: (reg : List (String × Animation))

/-- hasAnimation(animName): a builder is registered, or the name is the
reserved name invisible. -/
def hasAnimation (reg : AnimationRegistry) (animName : String) : Bool :=
  (List.lookup animName (reg : List (String × Animation))).isSome || animName == "invisible"

/-- The one-frame 100ms non-looping animation the invisible branch of
createAnimation synthesizes. -/
def invisibleAnimation : Animation :=
  (newAnimation false).addSprite
    { name := some "invisible", duration := some 100, offsetX := none, offsetY := none,
      opacity := none }

/-- createAnimation(animName) at clock value now: the invisible branch is
checked first and returns the synthesized animation as built (no name
stamping, no start); otherwise a registered builder is invoked, the name
field is stamped and start() is called; otherwise the not-found error
carrying the requested name. The registry is returned unchanged alongside
the result. -/
def createAnimation (reg : AnimationRegistry) (now : Int) (animName : String) :
    (Except String Animation) × AnimationRegistry :=
  if animName = "invisible" then
    (Except.ok invisibleAnimation, reg)
  else
    match List.lookup animName (reg : List (String × Animation)) with
    | some built => (Except.ok (({ built with name := animName }).start now), reg)
    | none => (Except.error animName, reg)

/-- Repeated update calls, once per tick, in the order of the tick list. -/
def runUpdates (a : Animation) (ts : List Int) : Animation :=
  ts.foldl Animation.update a

/-- The same animation state with the playback origin translated by c:
after k drift-free loop wraps the origin has advanced by exactly k times
the total duration. -/
def shiftStart (c : Int) (a : Animation) : Animation :=
  { a with timestampStart := a.timestampStart + c }

/-- Sample two-frame animation of the spec scenarios: frames a (100ms) and
b (50ms), not looping, started at clock 0. -/
def twoFrameAnim : Animation :=
  ((newAnimation false).addSprite
    { name := some "a", duration := some 100, offsetX := none, offsetY := none,
      opacity := none }).addSprite
    { name := some "b", duration := some 50, offsetX := none, offsetY := none,
      opacity := none }

/-- Sample one-frame looping animation of the spec scenarios: one frame of
100ms, looping. -/
def oneFrameLoopAnim : Animation :=
  (newAnimation true).addSprite
    { name := some "a", duration := some 100, offsetX := none, offsetY := none,
      opacity := none }

/-- Empty registry state, before any createAnimationBuilder call. -/
def emptyRegistry : AnimationRegistry := []

/-- Sample registry with one builder registered under the name walk that
produces the two-frame animation. -/
def sampleRegistry : AnimationRegistry := createAnimationBuilder [] "walk" twoFrameAnim

/-- The cumulative-duration invariant of an Animation under construction:
totalDurationMs is the sum of the frame durations, and the
durationUpToNow of each frame is the sum of the durations of the frames
strictly before it. -/
def prefixSumsOk (a : Animation) : Prop :=
  a.totalDurationMs = (a.sprites.map (fun s => s.duration)).sum ∧
  ∀ i (h : i < a.sprites.length),
    (a.sprites.get ⟨i, h⟩).durationUpToNow =
      ((a.sprites.take i).map (fun s => s.duration)).sum



/-! Characterization of the binary search loop: the result is either a
visited midpoint passing the strict containment test, or, when no visited
midpoint passes it, the last visited midpoint (the entry lastIndex when the
loop never runs). -/

theorem getAnimIndexGo_char (a : Animation) (t : Int) :
    ∀ (fuel : Nat) (lastIndex leftI rightI : Int),
      (rightI + 1 - leftI).toNat ≤ fuel →
      ((∃ m, m ∈ a.visitedGo t fuel leftI rightI ∧ a.strictContain t m = true ∧
        a.getAnimIndexGo t fuel lastIndex leftI rightI = m) ∨
      ((∀ m ∈ a.visitedGo t fuel leftI rightI, a.strictContain t m = false) ∧
        a.getAnimIndexGo t fuel lastIndex leftI rightI =
          (a.visitedGo t fuel leftI rightI).getLastD lastIndex)) := by
  intro fuel
  induction fuel with
  | zero =>
    intro lastIndex leftI rightI hle
    right
    constructor
    · intro m hm
      simp [Animation.visitedGo] at hm
    · simp [Animation.visitedGo, Animation.getAnimIndexGo]
  | succ n ih =>
    intro lastIndex leftI rightI hle
    by_cases hlr : leftI ≤ rightI
    · by_cases hc : a.strictContain t (leftI + (rightI - leftI) / 2) = true
      · have hv : a.visitedGo t (n + 1) leftI rightI = [leftI + (rightI - leftI) / 2] := by
          rw [Animation.visitedGo]
          simp [hlr, hc]
        have hg : a.getAnimIndexGo t (n + 1) lastIndex leftI rightI =
            leftI + (rightI - leftI) / 2 := by
          rw [Animation.getAnimIndexGo]
          simp [hlr, hc]
        left
        exact ⟨leftI + (rightI - leftI) / 2, by simp [hv], hc, hg⟩
      · rw [Bool.not_eq_true] at hc
        by_cases hge : t ≥ a.endTime (leftI + (rightI - leftI) / 2)
        · have hv : a.visitedGo t (n + 1) leftI rightI =
              (leftI + (rightI - leftI) / 2) ::
                a.visitedGo t n (leftI + (rightI - leftI) / 2 + 1) rightI := by
            rw [Animation.visitedGo]
            simp [hlr, hc, hge]
          have hg : a.getAnimIndexGo t (n + 1) lastIndex leftI rightI =
              a.getAnimIndexGo t n (leftI + (rightI - leftI) / 2)
                (leftI + (rightI - leftI) / 2 + 1) rightI := by
            rw [Animation.getAnimIndexGo]
            simp [hlr, hc, hge]
          rw [hv, hg]
          rcases ih (leftI + (rightI - leftI) / 2) (leftI + (rightI - leftI) / 2 + 1) rightI
              (by omega) with ⟨m, hmem, hcm, heq⟩ | ⟨hall, heq⟩
          · left
            exact ⟨m, by simp [hmem], hcm, heq⟩
          · right
            refine ⟨?_, ?_⟩
            · intro m hm'
              rcases List.mem_cons.mp hm' with rfl | hm'
              · exact hc
              · exact hall m hm'
            · rw [List.getLastD_cons]
              exact heq
        · have hv : a.visitedGo t (n + 1) leftI rightI =
              (leftI + (rightI - leftI) / 2) ::
                a.visitedGo t n leftI (leftI + (rightI - leftI) / 2 - 1) := by
            rw [Animation.visitedGo]
            simp [hlr, hc, hge]
          have hg : a.getAnimIndexGo t (n + 1) lastIndex leftI rightI =
              a.getAnimIndexGo t n (leftI + (rightI - leftI) / 2)
                leftI (leftI + (rightI - leftI) / 2 - 1) := by
            rw [Animation.getAnimIndexGo]
            simp [hlr, hc, hge]
          rw [hv, hg]
          rcases ih (leftI + (rightI - leftI) / 2) leftI (leftI + (rightI - leftI) / 2 - 1)
              (by omega) with ⟨m, hmem, hcm, heq⟩ | ⟨hall, heq⟩
          · left
            exact ⟨m, by simp [hmem], hcm, heq⟩
          · right
            refine ⟨?_, ?_⟩
            · intro m hm'
              rcases List.mem_cons.mp hm' with rfl | hm'
              · exact hc
              · exact hall m hm'
            · rw [List.getLastD_cons]
              exact heq
    · have hv : a.visitedGo t (n + 1) leftI rightI = [] := by
        rw [Animation.visitedGo]
        simp [hlr]
      have hg : a.getAnimIndexGo t (n + 1) lastIndex leftI rightI = lastIndex := by
        rw [Animation.getAnimIndexGo]
        simp [hlr]
      rw [hv, hg]
      right
      simp

theorem getAnimIndexGo_bounds (a : Animation) (t : Int) (B : Int) :
    ∀ (fuel : Nat) (lastIndex leftI rightI : Int),
      0 ≤ leftI → rightI ≤ B → 0 ≤ lastIndex → lastIndex ≤ B →
      ((0 ≤ a.getAnimIndexGo t fuel lastIndex leftI rightI ∧
        a.getAnimIndexGo t fuel lastIndex leftI rightI ≤ B) ∧
      (∀ m ∈ a.visitedGo t fuel leftI rightI, 0 ≤ m ∧ m ≤ B)) := by
  intro fuel
  induction fuel with
  | zero =>
    intro lastIndex leftI rightI h1 h2 h3 h4
    refine ⟨?_, ?_⟩
    · rw [Animation.getAnimIndexGo]
      exact ⟨h3, h4⟩
    · intro m hm
      simp [Animation.visitedGo] at hm
  | succ n ih =>
    intro lastIndex leftI rightI h1 h2 h3 h4
    by_cases hlr : leftI ≤ rightI
    · have hmid : leftI ≤ leftI + (rightI - leftI) / 2 ∧
          leftI + (rightI - leftI) / 2 ≤ rightI := by
        omega
      by_cases hc : a.strictContain t (leftI + (rightI - leftI) / 2) = true
      · rw [Animation.getAnimIndexGo, Animation.visitedGo]
        simp only [hlr, if_true, hc]
        refine ⟨⟨by omega, by omega⟩, ?_⟩
        intro m hm
        simp at hm
        omega
      · rw [Bool.not_eq_true] at hc
        by_cases hge : t ≥ a.endTime (leftI + (rightI - leftI) / 2)
        · have hv : a.visitedGo t (n + 1) leftI rightI =
              (leftI + (rightI - leftI) / 2) ::
                a.visitedGo t n (leftI + (rightI - leftI) / 2 + 1) rightI := by
            rw [Animation.visitedGo]
            simp [hlr, hc, hge]
          have hg : a.getAnimIndexGo t (n + 1) lastIndex leftI rightI =
              a.getAnimIndexGo t n (leftI + (rightI - leftI) / 2)
                (leftI + (rightI - leftI) / 2 + 1) rightI := by
            rw [Animation.getAnimIndexGo]
            simp [hlr, hc, hge]
          rw [hv, hg]
          have hrec := ih (leftI + (rightI - leftI) / 2) (leftI + (rightI - leftI) / 2 + 1)
            rightI (by omega) h2 (by omega) (by omega)
          refine ⟨hrec.1, ?_⟩
          intro m hm
          rcases List.mem_cons.mp hm with rfl | hm
          · omega
          · exact hrec.2 m hm
        · have hv : a.visitedGo t (n + 1) leftI rightI =
              (leftI + (rightI - leftI) / 2) ::
                a.visitedGo t n leftI (leftI + (rightI - leftI) / 2 - 1) := by
            rw [Animation.visitedGo]
            simp [hlr, hc, hge]
          have hg : a.getAnimIndexGo t (n + 1) lastIndex leftI rightI =
              a.getAnimIndexGo t n (leftI + (rightI - leftI) / 2)
                leftI (leftI + (rightI - leftI) / 2 - 1) := by
            rw [Animation.getAnimIndexGo]
            simp [hlr, hc, hge]
          rw [hv, hg]
          have hrec := ih (leftI + (rightI - leftI) / 2) leftI
            (leftI + (rightI - leftI) / 2 - 1) h1 (by omega) (by omega) (by omega)
          refine ⟨hrec.1, ?_⟩
          intro m hm
          rcases List.mem_cons.mp hm with rfl | hm
          · omega
          · exact hrec.2 m hm
    · have hv : a.visitedGo t (n + 1) leftI rightI = [] := by
        rw [Animation.visitedGo]
        simp [hlr]
      have hg : a.getAnimIndexGo t (n + 1) lastIndex leftI rightI = lastIndex := by
        rw [Animation.getAnimIndexGo]
        simp [hlr]
      rw [hv, hg]
      refine ⟨⟨h3, h4⟩, ?_⟩
      intro m hm
      simp at hm

/-- Claim C1: for an Animation with a non-empty sprite sequence (and an in
range currentSpriteIndex, where the source code is total), getAnimIndex is
the binary search whose left bound starts at currentSpriteIndex, not 0
(first conjunct, the definitional unfolding), its containment test
strictContain is strict on both ends, and its result is a visited midpoint
that passes strict containment when one does, and otherwise the last
visited midpoint lastIndex (initially 0), in particular when timestampNow
equals a frame boundary timestamp and every containment test fails. -/
theorem c1_getAnimIndex_search_result (a : Animation) (t : Int)
    (hne : a.sprites ≠ []) (hcsi : 0 ≤ a.currentSpriteIndex) :
    (a.getAnimIndex t =
      a.getAnimIndexGo t a.searchFuel 0 a.currentSpriteIndex ((a.sprites.length : Int) - 1)) ∧
    ((∃ m, m ∈ a.visitedMids t ∧ a.strictContain t m = true ∧ a.getAnimIndex t = m) ∨
      ((∀ m ∈ a.visitedMids t, a.strictContain t m = false) ∧
        a.getAnimIndex t = (a.visitedMids t).getLastD 0)) := by
  refine ⟨rfl, ?_⟩
  have h := getAnimIndexGo_char a t a.searchFuel 0 a.currentSpriteIndex
    ((a.sprites.length : Int) - 1) (by simp [Animation.searchFuel])
  exact h

/-- Witness for claim C1 at the two-frame animation and the exact frame
boundary timestamp 100: there the boundary falls through every containment
test and the result is the last visited midpoint, index 1. -/
theorem c1_getAnimIndex_search_result_witness :
    twoFrameAnim.sprites ≠ [] ∧ 0 ≤ twoFrameAnim.currentSpriteIndex ∧
    ((twoFrameAnim.getAnimIndex 100 =
      twoFrameAnim.getAnimIndexGo 100 twoFrameAnim.searchFuel 0
        twoFrameAnim.currentSpriteIndex ((twoFrameAnim.sprites.length : Int) - 1)) ∧
    ((∃ m, m ∈ twoFrameAnim.visitedMids 100 ∧ twoFrameAnim.strictContain 100 m = true ∧
        twoFrameAnim.getAnimIndex 100 = m) ∨
      ((∀ m ∈ twoFrameAnim.visitedMids 100, twoFrameAnim.strictContain 100 m = false) ∧
        twoFrameAnim.getAnimIndex 100 = (twoFrameAnim.visitedMids 100).getLastD 0))) ∧
    twoFrameAnim.getAnimIndex 100 = 1 ∧
    ({ twoFrameAnim with currentSpriteIndex := 1 }).getAnimIndex 50 = 1 ∧
    ({ twoFrameAnim with currentSpriteIndex := 0 }).getAnimIndex 50 = 0 :=
  ⟨by decide, by decide,
    c1_getAnimIndex_search_result twoFrameAnim 100 (by decide) (by decide),
    by decide, by decide, by decide⟩

/-- Claim C8: for an Animation with a non-empty sprite sequence and
currentSpriteIndex within bounds, getAnimIndex returns an index within
0 and sprites.length - 1 for every query time, and every midpoint the
search visits (every frame it reads) is within bounds as well. -/
theorem c8_getAnimIndex_in_bounds (a : Animation) (t : Int)
    (hne : a.sprites ≠ []) (h0 : 0 ≤ a.currentSpriteIndex)
    (hlt : a.currentSpriteIndex < (a.sprites.length : Int)) :
    (0 ≤ a.getAnimIndex t ∧ a.getAnimIndex t ≤ (a.sprites.length : Int) - 1) ∧
    (∀ m ∈ a.visitedMids t, 0 ≤ m ∧ m ≤ (a.sprites.length : Int) - 1) := by
  have hlen : 0 < (a.sprites.length : Int) := by
    have := List.length_pos.mpr hne
    exact_mod_cast this
  exact getAnimIndexGo_bounds a t ((a.sprites.length : Int) - 1) a.searchFuel 0
    a.currentSpriteIndex ((a.sprites.length : Int) - 1) h0 (by omega) (by omega) (by omega)

/-- Witness for claim C8 at the two-frame animation and a query time far
after the last frame end. -/
theorem c8_getAnimIndex_in_bounds_witness :
    twoFrameAnim.sprites ≠ [] ∧ 0 ≤ twoFrameAnim.currentSpriteIndex ∧
    twoFrameAnim.currentSpriteIndex < (twoFrameAnim.sprites.length : Int) ∧
    ((0 ≤ twoFrameAnim.getAnimIndex 99999 ∧
      twoFrameAnim.getAnimIndex 99999 ≤ (twoFrameAnim.sprites.length : Int) - 1) ∧
    (∀ m ∈ twoFrameAnim.visitedMids 99999, 0 ≤ m ∧
      m ≤ (twoFrameAnim.sprites.length : Int) - 1)) :=
  ⟨by decide, by decide, by decide,
    c8_getAnimIndex_in_bounds twoFrameAnim 99999 (by decide) (by decide) (by decide)⟩

theorem prefixSumsOk_newAnimation (l : Bool) : prefixSumsOk (newAnimation l) := by
  constructor
  · simp [newAnimation]
  · intro i h
    simp [newAnimation] at h

theorem prefixSumsOk_addSprite (a : Animation) (p : PartialAnimSprite)
    (ha : prefixSumsOk a) : prefixSumsOk (a.addSprite p) := by
  obtain ⟨h1, h2⟩ := ha
  constructor
  · simp [Animation.addSprite, h1]
  · intro i h
    have hlen : (a.addSprite p).sprites.length = a.sprites.length + 1 := by
      simp [Animation.addSprite]
    rcases Nat.lt_or_ge i a.sprites.length with hi | hi
    · have hget : ((a.addSprite p).sprites.get ⟨i, h⟩) = a.sprites.get ⟨i, hi⟩ := by
        simp only [Animation.addSprite, List.get_eq_getElem]
        exact List.getElem_append_left hi
      have htake : (a.addSprite p).sprites.take i = a.sprites.take i := by
        simp only [Animation.addSprite]
        rw [List.take_append_eq_append_take]
        have : i - a.sprites.length = 0 := by omega
        simp [this]
      rw [hget, htake]
      exact h2 i hi
    · have hieq : i = a.sprites.length := by omega
      subst hieq
      have hget : ((a.addSprite p).sprites.get ⟨a.sprites.length, h⟩).durationUpToNow =
          a.totalDurationMs := by
        simp [Animation.addSprite]
      have htake : (a.addSprite p).sprites.take a.sprites.length = a.sprites := by
        simp only [Animation.addSprite]
        rw [List.take_append_eq_append_take]
        simp
      rw [hget, htake]
      exact h1

theorem prefixSumsOk_foldl (ps : List PartialAnimSprite) :
    ∀ (a : Animation), prefixSumsOk a → prefixSumsOk (ps.foldl Animation.addSprite a) := by
  induction ps with
  | nil =>
    intro a ha
    exact ha
  | cons p ps ih =>
    intro a ha
    exact ih (a.addSprite p) (prefixSumsOk_addSprite a p ha)

theorem foldl_addSprite_durations (ps : List PartialAnimSprite) :
    ∀ (a : Animation),
      ((ps.foldl Animation.addSprite a).sprites.map (fun s => s.duration)) =
        (a.sprites.map (fun s => s.duration)) ++ ps.map (fun q => q.duration.getD 0) := by
  induction ps with
  | nil =>
    intro a
    simp
  | cons p ps ih =>
    intro a
    rw [List.foldl_cons, ih (a.addSprite p)]
    simp [Animation.addSprite]

theorem wrapStep_not_loop (a : Animation) (now : Int) (h : a.loop = false) :
    a.wrapStep now = a := by
  unfold Animation.wrapStep
  split
  · split
    · rename_i hcond
      rw [h] at hcond
      simp at hcond
    · rfl
  · rfl

theorem wrapStep_fields (a : Animation) (now : Int) :
    (a.wrapStep now).loop = a.loop ∧ (a.wrapStep now).sprites = a.sprites ∧
    (a.wrapStep now).totalDurationMs = a.totalDurationMs ∧
    ((a.wrapStep now).done = true → a.done = true) := by
  unfold Animation.wrapStep
  split
  · split
    · dsimp only
      split <;> simp [Animation.reset, Animation.start]
    · simp
  · simp

theorem update_of_not_loop (a : Animation) (now : Int) (h : a.loop = false) :
    a.update now =
      if now - a.timestampStart ≥ a.totalDurationMs then
        { a with currentSpriteIndex := a.getAnimIndex now, done := true }
      else { a with currentSpriteIndex := a.getAnimIndex now } := by
  unfold Animation.update
  rw [wrapStep_not_loop a now h]
  simp only [h, if_true]

theorem update_of_loop (a : Animation) (now : Int) (h : a.loop = true) :
    a.update now =
      { a.wrapStep now with currentSpriteIndex := (a.wrapStep now).getAnimIndex now } := by
  unfold Animation.update
  have hl : (a.wrapStep now).loop = true := by
    rw [(wrapStep_fields a now).1, h]
  simp only [hl]
  rfl

theorem update_loop_eq (a : Animation) (now : Int) : (a.update now).loop = a.loop := by
  cases hl : a.loop
  · rw [update_of_not_loop a now hl]
    split <;> simp [hl]
  · rw [update_of_loop a now hl]
    simp [(wrapStep_fields a now).1, hl]

theorem update_done_imp (a : Animation) (now : Int) :
    (a.update now).done = true → (a.done = true ∨ a.loop = false) := by
  intro h
  cases hl : a.loop
  · right
    rfl
  · left
    rw [update_of_loop a now hl] at h
    exact (wrapStep_fields a now).2.2.2 h

/-- Claim C2: done is true only when loop is false (an invariant
established by the constructor and preserved by every operation); for a
non-looping animation not yet done, update at time now latches done
exactly when now - timestampStart has reached totalDurationMs; once done
is true (hence loop is false) it stays true under update, addSprite,
start and setCurrentSprite, and only reset clears it, which also puts
currentSpriteIndex back to 0. -/
theorem c2_done_invariant (a : Animation) (now : Int) (p : PartialAnimSprite)
    (i : Int) (l : Bool) :
    ((newAnimation l).done = true → (newAnimation l).loop = false) ∧
    ((a.done = true → a.loop = false) →
      (((a.update now).done = true → (a.update now).loop = false) ∧
       ((a.addSprite p).done = true → (a.addSprite p).loop = false) ∧
       ((a.start now).done = true → (a.start now).loop = false) ∧
       ((a.setCurrentSprite i).done = true → (a.setCurrentSprite i).loop = false) ∧
       ((a.reset).done = true → (a.reset).loop = false))) ∧
    (a.loop = false → a.done = false →
      ((a.update now).done = true ↔ now - a.timestampStart ≥ a.totalDurationMs)) ∧
    (a.done = true → a.loop = false →
      ((a.update now).done = true ∧ (a.addSprite p).done = true ∧
       (a.start now).done = true ∧ (a.setCurrentSprite i).done = true)) ∧
    ((a.reset).done = false ∧ (a.reset).currentSpriteIndex = 0) := by
  refine ⟨?_, ?_, ?_, ?_, rfl, rfl⟩
  · intro h
    simp [newAnimation] at h
  · intro hinv
    refine ⟨?_, hinv, hinv, hinv, ?_⟩
    · intro h
      rw [update_loop_eq]
      rcases update_done_imp a now h with hd | hl
      · exact hinv hd
      · exact hl
    · intro h
      simp [Animation.reset] at h
  · intro hl hd
    rw [update_of_not_loop a now hl]
    by_cases hc : now - a.timestampStart ≥ a.totalDurationMs
    · rw [if_pos hc]
      simpa using hc
    · rw [if_neg hc]
      simpa [hd] using hc
  · intro hd hl
    refine ⟨?_, hd, hd, hd⟩
    rw [update_of_not_loop a now hl]
    split <;> simp [hd]

/-- Witness for claim C2 at the two-frame non-looping animation of the
spec scenario: update at 160 latches done, and reset clears it. -/
theorem c2_done_invariant_witness :
    (twoFrameAnim.loop = false ∧ twoFrameAnim.done = false ∧
      ((twoFrameAnim.update 160).done = true ↔
        (160 : Int) - twoFrameAnim.timestampStart ≥ twoFrameAnim.totalDurationMs)) ∧
    (twoFrameAnim.update 160).done = true ∧
    (twoFrameAnim.update 40).done = false ∧
    ((twoFrameAnim.update 160).reset).done = false ∧
    ((twoFrameAnim.update 160).reset).currentSpriteIndex = 0 :=
  ⟨⟨rfl, rfl, (c2_done_invariant twoFrameAnim 160 ⟨none, none, none, none, none⟩ 0
      false).2.2.1 rfl rfl⟩,
    by decide, by decide, by decide, by decide⟩

theorem wrapStep_of_wrap (a : Animation) (now : Int)
    (h1 : a.currentSpriteIndex = (a.sprites.length : Int) - 1)
    (h2 : a.loop = true) (h3 : now - a.timestampStart > a.totalDurationMs) :
    a.wrapStep now =
      { a with
        done := false
        currentSpriteIndex := 0
        timestampStart :=
          if now - (a.timestampStart + a.totalDurationMs) < a.totalDurationMs then
            a.timestampStart + a.totalDurationMs
          else now } := by
  unfold Animation.wrapStep
  rw [if_pos h1, if_pos ⟨h2, h3⟩]
  dsimp only
  by_cases hc : now - (a.timestampStart + a.totalDurationMs) < a.totalDurationMs
  · rw [if_pos hc, if_pos hc]
    rfl
  · rw [if_neg hc, if_neg hc]
    rfl

/-- Claim C3: a looping animation on its last frame with more than the
total duration elapsed re-bases its playback origin: the new
timestampStart is newStart = timestampStart + totalDurationMs when
now - newStart is still below the total duration, and now otherwise; in
both cases the wrap phase clears done and resets currentSpriteIndex to 0,
and the final currentSpriteIndex is recomputed by getAnimIndex at now on
that re-based state. -/
theorem c3_loop_rebase (a : Animation) (now : Int)
    (hl : a.loop = true)
    (hlast : a.currentSpriteIndex = (a.sprites.length : Int) - 1)
    (helapsed : now - a.timestampStart > a.totalDurationMs) :
    ((a.update now).timestampStart =
      if now - (a.timestampStart + a.totalDurationMs) < a.totalDurationMs then
        a.timestampStart + a.totalDurationMs
      else now) ∧
    (a.update now).done = false ∧
    (a.wrapStep now).done = false ∧ (a.wrapStep now).currentSpriteIndex = 0 ∧
    (a.update now).currentSpriteIndex = (a.wrapStep now).getAnimIndex now := by
  rw [update_of_loop a now hl, wrapStep_of_wrap a now hlast hl helapsed]
  exact ⟨rfl, rfl, rfl, rfl, rfl⟩

/-- Witness for claim C3 at the one-frame looping animation: at time 150
the re-base is drift-free (timestampStart becomes 100, the ideal cycle
boundary); at time 250 a full cycle was skipped and timestampStart
becomes 250. -/
theorem c3_loop_rebase_witness :
    (oneFrameLoopAnim.loop = true ∧
      oneFrameLoopAnim.currentSpriteIndex = (oneFrameLoopAnim.sprites.length : Int) - 1 ∧
      (150 : Int) - oneFrameLoopAnim.timestampStart > oneFrameLoopAnim.totalDurationMs ∧
      (((oneFrameLoopAnim.update 150).timestampStart =
        if (150 : Int) - (oneFrameLoopAnim.timestampStart + oneFrameLoopAnim.totalDurationMs) <
            oneFrameLoopAnim.totalDurationMs then
          oneFrameLoopAnim.timestampStart + oneFrameLoopAnim.totalDurationMs
        else 150) ∧
      (oneFrameLoopAnim.update 150).done = false ∧
      (oneFrameLoopAnim.wrapStep 150).done = false ∧
      (oneFrameLoopAnim.wrapStep 150).currentSpriteIndex = 0 ∧
      (oneFrameLoopAnim.update 150).currentSpriteIndex =
        (oneFrameLoopAnim.wrapStep 150).getAnimIndex 150)) ∧
    (oneFrameLoopAnim.update 150).timestampStart = 100 ∧
    (oneFrameLoopAnim.update 250).timestampStart = 250 :=
  ⟨⟨rfl, by decide, by decide,
    c3_loop_rebase oneFrameLoopAnim 150 rfl (by decide) (by decide)⟩,
    by decide, by decide⟩

/-- Claim C4: addSprite appends exactly one fully populated frame whose
durationUpToNow and timestampBegin are the pre-call totalDurationMs,
whose timestampEnd is that value plus the frame duration (0 when absent),
whose hasPlayedSound is false, and increments totalDurationMs by the
duration; consequently after any sequence of addSprite calls from a fresh
animation, totalDurationMs is the sum of the appended durations and each
durationUpToNow is the prefix sum of the durations before the frame. -/
theorem c4_addSprite_prefix_sums (a : Animation) (p : PartialAnimSprite) :
    ((a.addSprite p).sprites = a.sprites ++
      [{ name := p.name.getD ""
         duration := p.duration.getD 0
         durationUpToNow := a.totalDurationMs
         timestampBegin := some a.totalDurationMs
         timestampEnd := some (a.totalDurationMs + p.duration.getD 0)
         offsetX := some (p.offsetX.getD 0)
         offsetY := some (p.offsetY.getD 0)
         opacity := p.opacity
         hasPlayedSound := false }] ∧
      (a.addSprite p).totalDurationMs = a.totalDurationMs + p.duration.getD 0) ∧
    ∀ (l : Bool) (ps : List PartialAnimSprite),
      (ps.foldl Animation.addSprite (newAnimation l)).totalDurationMs =
        (ps.map (fun q => q.duration.getD 0)).sum ∧
      ∀ i (h : i < (ps.foldl Animation.addSprite (newAnimation l)).sprites.length),
        ((ps.foldl Animation.addSprite (newAnimation l)).sprites.get ⟨i, h⟩).durationUpToNow =
          (((ps.foldl Animation.addSprite (newAnimation l)).sprites.take i).map
            (fun s => s.duration)).sum := by
  refine ⟨⟨rfl, rfl⟩, ?_⟩
  intro l ps
  have hinv := prefixSumsOk_foldl ps (newAnimation l) (prefixSumsOk_newAnimation l)
  refine ⟨?_, hinv.2⟩
  rw [hinv.1, foldl_addSprite_durations ps (newAnimation l)]
  simp [newAnimation]

/-- Claim C5: createAnimation fails exactly when the requested name is not
the reserved name invisible and no builder is registered under it; the
error carries the requested name and is the only error the operation can
produce; for every registered name and for invisible it returns an
Animation; the registry comes back unchanged from the lookup. -/
theorem c5_createAnimation_error (reg : AnimationRegistry) (now : Int) (nm : String) :
    ((createAnimation reg now nm).1 = Except.error nm ↔
      (nm ≠ "invisible" ∧ List.lookup nm (reg : List (String × Animation)) = none)) ∧
    (∀ e, (createAnimation reg now nm).1 = Except.error e → e = nm) ∧
    ((nm = "invisible" ∨
        (List.lookup nm (reg : List (String × Animation))).isSome = true) →
      ∃ b, (createAnimation reg now nm).1 = Except.ok b) ∧
    (createAnimation reg now nm).2 = reg := by
  unfold createAnimation
  by_cases hi : nm = "invisible"
  · refine ⟨?_, ?_, ?_, ?_⟩ <;> simp [hi]
  · rw [if_neg hi]
    cases hlu : List.lookup nm (reg : List (String × Animation)) with
    | none =>
      refine ⟨?_, ?_, ?_, rfl⟩
      · simp [hi]
      · intro e he
        simpa using he.symm
      · intro h
        rcases h with h | h
        · exact absurd h hi
        · simp at h
    | some b =>
      refine ⟨?_, ?_, ?_, rfl⟩
      · simp [hi, hlu]
      · intro e he
        simp at he
      · intro _
        exact ⟨({ b with name := nm }).start now, rfl⟩

/-- Witness for claim C5 at the sample registry: the name nonexistent
fails with an error carrying that name, the registered name walk and the
reserved name invisible succeed, and the registry is unchanged. -/
theorem c5_createAnimation_error_witness :
    ((createAnimation sampleRegistry 7 "nonexistent").1 = Except.error "nonexistent" ↔
      ("nonexistent" ≠ "invisible" ∧
        List.lookup "nonexistent" (sampleRegistry : List (String × Animation)) = none)) ∧
    (∀ e, (createAnimation sampleRegistry 7 "nonexistent").1 = Except.error e →
      e = "nonexistent") ∧
    (("nonexistent" = "invisible" ∨
        (List.lookup "nonexistent" (sampleRegistry : List (String × Animation))).isSome = true) →
      ∃ b, (createAnimation sampleRegistry 7 "nonexistent").1 = Except.ok b) ∧
    (createAnimation sampleRegistry 7 "nonexistent").2 = sampleRegistry :=
  c5_createAnimation_error sampleRegistry 7 "nonexistent"

/-- Counterexample to claim C6 as stated: createAnimation of invisible
returns the synthesized animation, and the name field of that animation is
the empty string, not invisible (the invisible branch returns before the
name stamping of the builder branch). -/
theorem c6_invisible_name_counterexample :
    (createAnimation emptyRegistry 0 "invisible").1 = Except.ok invisibleAnimation ∧
    invisibleAnimation.name = "" ∧ ¬ invisibleAnimation.name = "invisible" :=
  ⟨rfl, rfl, by decide⟩

/-- Claim C6 as amended: createAnimation of invisible bypasses the
registry and returns a non-looping Animation with exactly one frame whose
frame name is invisible and whose duration is 100 milliseconds; the name
field of the returned Animation itself is left at the empty string (the
constructor default), not stamped with invisible. -/
theorem c6_invisible_animation (reg : AnimationRegistry) (now : Int) :
    ∃ b, (createAnimation reg now "invisible").1 = Except.ok b ∧
      b.loop = false ∧
      b.sprites.map (fun s => s.name) = ["invisible"] ∧
      b.sprites.map (fun s => s.duration) = [100] ∧
      b.name = "" := by
  refine ⟨invisibleAnimation, ?_, by decide, by decide, by decide, rfl⟩
  unfold createAnimation
  rw [if_pos rfl]

/-- Counterexample to claim C7 as stated: createAnimation of invisible at
clock value 5 succeeds, but the returned animation was never started: its
timestampStart is the constructor value 0, not the clock time 5 captured
at creation. -/
theorem c7_invisible_unstarted_counterexample :
    ∃ b, (createAnimation emptyRegistry 5 "invisible").1 = Except.ok b ∧
      ¬ b.timestampStart = 5 :=
  ⟨invisibleAnimation, rfl, by decide⟩

/-- Claim C7 as amended: for every registered, non-invisible name,
createAnimation invokes the builder, stamps the name field with the
requested name and calls start so that timestampStart holds the clock
time captured at creation, leaving the other fields as the builder made
them; the invisible animation, in contrast, is returned unstarted
(timestampStart stays at the constructor value 0) and unstamped (name
stays the empty string). -/
theorem c7_created_animation_started (reg : AnimationRegistry) (now : Int) (nm : String)
    (b0 : Animation)
    (hnm : nm ≠ "invisible")
    (hlu : List.lookup nm (reg : List (String × Animation)) = some b0) :
    (∃ b, (createAnimation reg now nm).1 = Except.ok b ∧
      b.name = nm ∧ b.timestampStart = now ∧ b.sprites = b0.sprites ∧
      b.loop = b0.loop ∧ b.done = b0.done) ∧
    (∀ b2, (createAnimation reg now "invisible").1 = Except.ok b2 →
      b2.timestampStart = 0 ∧ b2.name = "") := by
  constructor
  · refine ⟨({ b0 with name := nm }).start now, ?_, rfl, rfl, rfl, rfl, rfl⟩
    unfold createAnimation
    rw [if_neg hnm, hlu]
  · intro b2 h
    have h2 : (createAnimation reg now "invisible").1 = Except.ok invisibleAnimation := by
      unfold createAnimation
      rw [if_pos rfl]
    rw [h2] at h
    cases h
    exact ⟨rfl, rfl⟩

/-- Witness for claim C7 as amended, at the sample registry and the
registered name walk with creation clock 7. -/
theorem c7_created_animation_started_witness :
    ("walk" : String) ≠ "invisible" ∧
    List.lookup "walk" (sampleRegistry : List (String × Animation)) = some twoFrameAnim ∧
    ((∃ b, (createAnimation sampleRegistry 7 "walk").1 = Except.ok b ∧
      b.name = "walk" ∧ b.timestampStart = 7 ∧ b.sprites = twoFrameAnim.sprites ∧
      b.loop = twoFrameAnim.loop ∧ b.done = twoFrameAnim.done) ∧
    (∀ b2, (createAnimation sampleRegistry 7 "invisible").1 = Except.ok b2 →
      b2.timestampStart = 0 ∧ b2.name = "")) :=
  ⟨by decide, by decide,
    c7_created_animation_started sampleRegistry 7 "walk" twoFrameAnim (by decide) (by decide)⟩

theorem spriteAt_shift (c : Int) (a : Animation) (i : Int) :
    (shiftStart c a).spriteAt i = a.spriteAt i := rfl

theorem endTime_shift (c : Int) (a : Animation) (i : Int) :
    (shiftStart c a).endTime i = a.endTime i + c := by
  show (a.spriteAt i).timestampEnd.getD 0 + (a.timestampStart + c) = _
  unfold Animation.endTime
  ring

theorem beginTime_shift (c : Int) (a : Animation) (i : Int) :
    (shiftStart c a).beginTime i = a.beginTime i + c := by
  show (a.spriteAt i).timestampBegin.getD 0 + (a.timestampStart + c) = _
  unfold Animation.beginTime
  ring

theorem strictContain_shift (c : Int) (a : Animation) (t i : Int) :
    (shiftStart c a).strictContain (t + c) i = a.strictContain t i := by
  unfold Animation.strictContain
  rw [endTime_shift, beginTime_shift]
  by_cases h1 : t < a.endTime i <;> by_cases h2 : t > a.beginTime i <;>
    simp [h1, h2] <;> omega

theorem getAnimIndexGo_shift (a : Animation) (c t : Int) :
    ∀ (fuel : Nat) (lastIndex leftI rightI : Int),
      (shiftStart c a).getAnimIndexGo (t + c) fuel lastIndex leftI rightI =
        a.getAnimIndexGo t fuel lastIndex leftI rightI := by
  intro fuel
  induction fuel with
  | zero =>
    intro lastIndex leftI rightI
    rfl
  | succ n ih =>
    intro lastIndex leftI rightI
    rw [Animation.getAnimIndexGo, Animation.getAnimIndexGo]
    by_cases hlr : leftI ≤ rightI
    · rw [if_pos hlr, if_pos hlr]
      dsimp only
      rw [strictContain_shift]
      by_cases hc : a.strictContain t (leftI + (rightI - leftI) / 2) = true
      · rw [if_pos hc, if_pos hc]
      · rw [Bool.not_eq_true] at hc
        rw [hc]
        have hge : (t + c ≥ (shiftStart c a).endTime (leftI + (rightI - leftI) / 2)) ↔
            (t ≥ a.endTime (leftI + (rightI - leftI) / 2)) := by
          rw [endTime_shift]
          omega
        by_cases hg : t ≥ a.endTime (leftI + (rightI - leftI) / 2)
        · rw [if_pos (hge.mpr hg), if_pos hg, ih]
        · rw [if_neg (fun hh => hg (hge.mp hh)), if_neg hg, ih]
    · rw [if_neg hlr, if_neg hlr]

theorem getAnimIndex_shift (c : Int) (a : Animation) (t : Int) :
    (shiftStart c a).getAnimIndex (t + c) = a.getAnimIndex t := by
  unfold Animation.getAnimIndex
  exact getAnimIndexGo_shift a c t a.searchFuel 0 a.currentSpriteIndex
    ((a.sprites.length : Int) - 1)

theorem wrapStep_shift (a : Animation) (c now : Int) :
    (shiftStart c a).wrapStep (now + c) = shiftStart c (a.wrapStep now) := by
  unfold Animation.wrapStep
  by_cases h1 : a.currentSpriteIndex = (a.sprites.length : Int) - 1
  · have h1s : (shiftStart c a).currentSpriteIndex =
        ((shiftStart c a).sprites.length : Int) - 1 := h1
    rw [if_pos h1s, if_pos h1]
    by_cases h2 : a.loop = true ∧ now - a.timestampStart > a.totalDurationMs
    · have h2b := h2.2
      have h2s : (shiftStart c a).loop = true ∧
          (now + c) - (shiftStart c a).timestampStart > (shiftStart c a).totalDurationMs := by
        refine ⟨h2.1, ?_⟩
        show now + c - (a.timestampStart + c) > a.totalDurationMs
        omega
      rw [if_pos h2s, if_pos h2]
      dsimp only
      by_cases h3 : now - (a.timestampStart + a.totalDurationMs) < a.totalDurationMs
      · have h3s : (now + c) -
            ((shiftStart c a).timestampStart + (shiftStart c a).totalDurationMs) <
            (shiftStart c a).totalDurationMs := by
          show now + c - (a.timestampStart + c + a.totalDurationMs) < a.totalDurationMs
          omega
        have hts : (shiftStart c a).timestampStart + (shiftStart c a).totalDurationMs =
            a.timestampStart + a.totalDurationMs + c := by
          show a.timestampStart + c + a.totalDurationMs = _
          ring
        rw [if_pos h3s, if_pos h3, hts]
        rfl
      · have h3s : ¬ ((now + c) -
            ((shiftStart c a).timestampStart + (shiftStart c a).totalDurationMs) <
            (shiftStart c a).totalDurationMs) := by
          show ¬ (now + c - (a.timestampStart + c + a.totalDurationMs) < a.totalDurationMs)
          omega
        rw [if_neg h3s, if_neg h3]
        rfl
    · have h2s : ¬ ((shiftStart c a).loop = true ∧
          (now + c) - (shiftStart c a).timestampStart > (shiftStart c a).totalDurationMs) := by
        intro hh
        refine h2 ⟨hh.1, ?_⟩
        have hb : now + c - (a.timestampStart + c) > a.totalDurationMs := hh.2
        omega
      rw [if_neg h2s, if_neg h2]
  · have h1s : ¬ ((shiftStart c a).currentSpriteIndex =
        ((shiftStart c a).sprites.length : Int) - 1) := h1
    rw [if_neg h1s, if_neg h1]

theorem update_shift (a : Animation) (c now : Int) :
    (shiftStart c a).update (now + c) = shiftStart c (a.update now) := by
  cases hl : a.loop
  · have hls : (shiftStart c a).loop = false := hl
    rw [update_of_not_loop a now hl, update_of_not_loop (shiftStart c a) (now + c) hls]
    have harr : ((now + c) - (shiftStart c a).timestampStart ≥
        (shiftStart c a).totalDurationMs) ↔
        (now - a.timestampStart ≥ a.totalDurationMs) := by
      show now + c - (a.timestampStart + c) ≥ a.totalDurationMs ↔ _
      omega
    have hgx : (shiftStart c a).getAnimIndex (now + c) = a.getAnimIndex now :=
      getAnimIndex_shift c a now
    by_cases hcond : now - a.timestampStart ≥ a.totalDurationMs
    · rw [if_pos (harr.mpr hcond), if_pos hcond, hgx]
      rfl
    · rw [if_neg (fun hh => hcond (harr.mp hh)), if_neg hcond, hgx]
      rfl
  · have hls : (shiftStart c a).loop = true := hl
    rw [update_of_loop a now hl, update_of_loop (shiftStart c a) (now + c) hls,
      wrapStep_shift a c now, getAnimIndex_shift c (a.wrapStep now) now]
    rfl

theorem runUpdates_shift (c : Int) (ts : List Int) :
    ∀ (a : Animation),
      runUpdates (shiftStart c a) (ts.map (fun t => t + c)) =
        shiftStart c (runUpdates a ts) := by
  induction ts with
  | nil =>
    intro a
    rfl
  | cons t ts ih =>
    intro a
    show runUpdates ((shiftStart c a).update (t + c)) (ts.map (fun t => t + c)) =
      shiftStart c (runUpdates (a.update t) ts)
    rw [update_shift a c t]
    exact ih (a.update t)

theorem update_done_false_of_loop (a : Animation) (now : Int)
    (hl : a.loop = true) (hd : a.done = false) : (a.update now).done = false := by
  rw [update_of_loop a now hl]
  show (a.wrapStep now).done = false
  cases hwd : (a.wrapStep now).done
  · rfl
  · have hcontra := (wrapStep_fields a now).2.2.2 hwd
    rw [hd] at hcontra
    cases hcontra

theorem runUpdates_done_false (ts : List Int) :
    ∀ (a : Animation), a.loop = true → a.done = false →
      (runUpdates a ts).done = false := by
  induction ts with
  | nil =>
    intro a _ hd
    exact hd
  | cons t ts ih =>
    intro a hl hd
    show (runUpdates (a.update t) ts).done = false
    refine ih (a.update t) ?_ (update_done_false_of_loop a t hl hd)
    rw [update_loop_eq]
    exact hl

/-- Claim C9: for a looping animation with positive total duration D that
is not done, running the same tick sequence shifted forward by k times D
from the state whose playback origin has advanced by k times D (which is
exactly what k drift-free loop re-basings produce, the reading of the
claim that ignores the drift fallback) ends with the same
currentSpriteIndex, and isDone stays false on both runs; the final
conjuncts are the one-frame 100ms looping scenario queried after two full
cycles plus 10ms, ending at currentSpriteIndex 0 and isDone false. -/
theorem c9_loop_periodicity (a : Animation) (ts : List Int) (k : Nat)
    (hl : a.loop = true) (hD : 0 < a.totalDurationMs) (hd : a.done = false) :
    ((runUpdates (shiftStart ((k : Int) * a.totalDurationMs) a)
        (ts.map (fun t => t + (k : Int) * a.totalDurationMs))).currentSpriteIndex =
      (runUpdates a ts).currentSpriteIndex) ∧
    (runUpdates a ts).isDone = false ∧
    (runUpdates (shiftStart ((k : Int) * a.totalDurationMs) a)
        (ts.map (fun t => t + (k : Int) * a.totalDurationMs))).isDone = false ∧
    ((runUpdates (oneFrameLoopAnim.start 0) [50, 150, 210]).currentSpriteIndex = 0 ∧
      (runUpdates (oneFrameLoopAnim.start 0) [50, 150, 210]).isDone = false) := by
  refine ⟨?_, ?_, ?_, by decide, by decide⟩
  · rw [runUpdates_shift ((k : Int) * a.totalDurationMs) ts a]
    rfl
  · show (runUpdates a ts).done = false
    exact runUpdates_done_false ts a hl hd
  · rw [runUpdates_shift ((k : Int) * a.totalDurationMs) ts a]
    show (runUpdates a ts).done = false
    exact runUpdates_done_false ts a hl hd

/-- Witness for claim C9 at the started one-frame looping animation, the
tick list of the scenario and k equal to 2. -/
theorem c9_loop_periodicity_witness :
    (oneFrameLoopAnim.start 0).loop = true ∧
    (0 : Int) < (oneFrameLoopAnim.start 0).totalDurationMs ∧
    (oneFrameLoopAnim.start 0).done = false ∧
    (((runUpdates (shiftStart ((2 : Nat) * (oneFrameLoopAnim.start 0).totalDurationMs)
        (oneFrameLoopAnim.start 0))
        ([50, 150, 210].map
          (fun t => t + ((2 : Nat) : Int) * (oneFrameLoopAnim.start 0).totalDurationMs))).currentSpriteIndex =
      (runUpdates (oneFrameLoopAnim.start 0) [50, 150, 210]).currentSpriteIndex) ∧
    (runUpdates (oneFrameLoopAnim.start 0) [50, 150, 210]).isDone = false ∧
    (runUpdates (shiftStart ((2 : Nat) * (oneFrameLoopAnim.start 0).totalDurationMs)
        (oneFrameLoopAnim.start 0))
        ([50, 150, 210].map
          (fun t => t + ((2 : Nat) : Int) * (oneFrameLoopAnim.start 0).totalDurationMs))).isDone = false ∧
    ((runUpdates (oneFrameLoopAnim.start 0) [50, 150, 210]).currentSpriteIndex = 0 ∧
      (runUpdates (oneFrameLoopAnim.start 0) [50, 150, 210]).isDone = false)) :=
  ⟨rfl, by decide, rfl,
    c9_loop_periodicity (oneFrameLoopAnim.start 0) [50, 150, 210] 2 rfl (by decide) rfl⟩

/-- Claim C10: for an Animation whose sprite sequence is empty (and with
the in range currentSpriteIndex 0 such a state has in the source), every
operation is total: getAnimIndex returns 0 for every query time and
visits no frame at all; update leaves currentSpriteIndex at 0 and, for a
non-looping instance (whose totalDurationMs is 0 as construction makes
it), latches done on the first call whose now has reached timestampStart;
a call before timestampStart does not latch it; and getSpriteName of the
current index is undefined (none). -/
theorem c10_empty_sprites (a : Animation) (t now : Int)
    (hs : a.sprites = []) (hcsi : 0 ≤ a.currentSpriteIndex) :
    (a.getAnimIndex t = 0 ∧ a.visitedMids t = []) ∧
    (a.loop = false → a.totalDurationMs = 0 → a.done = false →
      (((a.update now).done = true ↔ a.timestampStart ≤ now) ∧
        (a.update now).currentSpriteIndex = 0)) ∧
    a.getSpriteName none = none := by
  have hf : a.searchFuel = 0 := by
    unfold Animation.searchFuel
    rw [hs]
    simp
    omega
  have hidx : ∀ u : Int, a.getAnimIndex u = 0 := by
    intro u
    unfold Animation.getAnimIndex
    rw [hf]
    rfl
  refine ⟨⟨hidx t, ?_⟩, ?_, ?_⟩
  · unfold Animation.visitedMids
    rw [hf]
    rfl
  · intro hl htot hd
    rw [update_of_not_loop a now hl]
    constructor
    · by_cases hc : now - a.timestampStart ≥ a.totalDurationMs
      · rw [if_pos hc]
        constructor
        · intro _
          omega
        · intro _
          rfl
      · rw [if_neg hc]
        constructor
        · intro hh
          have hh2 : a.done = true := hh
          rw [hd] at hh2
          cases hh2
        · intro hh
          exact absurd (show now - a.timestampStart ≥ a.totalDurationMs by omega) hc
    · by_cases hc : now - a.timestampStart ≥ a.totalDurationMs
      · rw [if_pos hc]
        show a.getAnimIndex now = 0
        exact hidx now
      · rw [if_neg hc]
        show a.getAnimIndex now = 0
        exact hidx now
  · unfold Animation.getSpriteName
    rw [hs]
    simp

/-- Witness for claim C10 at a fresh non-looping empty animation started
at clock 3, queried at 42 and updated at 5. -/
theorem c10_empty_sprites_witness :
    ((newAnimation false).start 3).sprites = [] ∧
    (0 : Int) ≤ ((newAnimation false).start 3).currentSpriteIndex ∧
    ((((newAnimation false).start 3).getAnimIndex 42 = 0 ∧
      ((newAnimation false).start 3).visitedMids 42 = []) ∧
    (((newAnimation false).start 3).loop = false →
      ((newAnimation false).start 3).totalDurationMs = 0 →
      ((newAnimation false).start 3).done = false →
      (((((newAnimation false).start 3).update 5).done = true ↔
        ((newAnimation false).start 3).timestampStart ≤ 5) ∧
        (((newAnimation false).start 3).update 5).currentSpriteIndex = 0)) ∧
    ((newAnimation false).start 3).getSpriteName none = none) :=
  ⟨rfl, by decide, c10_empty_sprites ((newAnimation false).start 3) 42 5 rfl (by decide)⟩

/-- Spec scenario check on the two-frame animation (frames a 100ms and b
50ms, non-looping, started at 0): update at 40 shows frame a, at 120
frame b, and at 160 the animation is done; the exact boundary timestamp
100 resolves to the last visited midpoint, frame index 1; and the left
search bound really is currentSpriteIndex: from index 1 a query inside
frame 0 stays at index 1, while from index 0 it finds 0. -/
theorem twoFrameAnim_scenario :
    (twoFrameAnim.update 40).getSpriteName none = some "a" ∧
    ((twoFrameAnim.update 40).update 120).getSpriteName none = some "b" ∧
    (((twoFrameAnim.update 40).update 120).update 160).isDone = true ∧
    twoFrameAnim.totalDurationMs = 150 ∧
    twoFrameAnim.getAnimIndex 100 = 1 ∧
    ({ twoFrameAnim with currentSpriteIndex := 1 }).getAnimIndex 50 = 1 ∧
    ({ twoFrameAnim with currentSpriteIndex := 0 }).getAnimIndex 50 = 0 := by
  decide
